import Mathlib

/-!
Verification of the serial session manager of the port-monitor application.

The definitions below are a shallow embedding of
`src/app/services/serial_service.py` (class `SerialPortService`) and the
session-management parts of `src/app/ui/main_window.py` (class `MainWindow`).
Python dictionaries are modelled as association lists, the heap of pyserial
`Serial` objects as an association list from allocation number to handle
state (Python object references become allocation numbers, so a captured
reference stays valid after the registry forgets it, exactly as in Python),
and device-level errors (the exception classes the code catches) are injected
through explicit fault flags.  Control-line writes that actually reach the
device are collected in an explicit trace.
-/

set_option autoImplicit false

/-- A control-line write that reached the physical device. -/
inductive CtrlWrite where
  | dtr (value : Bool)
  | rts (value : Bool)
  deriving Repr, DecidableEq

/-- Fault-injection switches for one underlying device handle: whether the
read path (`in_waiting` / `readline`) raises `SerialException`/`OSError`, and
whether updating each control line on the open device raises. -/
structure DevFaults where
  readErr : Bool
  dtrErr : Bool
  rtsErr : Bool
  deriving Repr, DecidableEq

/-- State of one pyserial `serial.Serial` object.  `owner` records which port
name the handle was opened for (instrumentation used only to state
invariants), `buffer` is the OS receive queue feeding `in_waiting` and
`readline`. -/
structure SerialConn where
  owner : String
  isOpen : Bool
  dtrState : Bool
  rtsState : Bool
  buffer : List Nat
  readErr : Bool
  dtrErr : Bool
  rtsErr : Bool
  deriving Repr, DecidableEq

/-- pyserial `Serial.setDTR(v)` (the `dtr` property setter): the requested
state is always recorded in `_dtr_state`; the device is touched only when the
port is open, and that device update can raise.  Returns the updated handle,
the device write performed (if any), and whether an exception was raised. -/
def SerialConn.setDTR (c : SerialConn) (v : Bool) : SerialConn × Option CtrlWrite × Bool :=
  let c' := { c with dtrState := v }
  if c.isOpen then
    if c.dtrErr then (c', none, true) else (c', some (CtrlWrite.dtr v), false)
  else (c', none, false)

/-- pyserial `Serial.setRTS(v)` (the `rts` property setter), as `setDTR`. -/
def SerialConn.setRTS (c : SerialConn) (v : Bool) : SerialConn × Option CtrlWrite × Bool :=
  let c' := { c with rtsState := v }
  if c.isOpen then
    if c.rtsErr then (c', none, true) else (c', some (CtrlWrite.rts v), false)
  else (c', none, false)

/-- pyserial `Serial.readline()` on the waiting buffer, under the assumption
that no further bytes arrive during the call: bytes are consumed up to and
including the first LF (0x0A); if no LF is waiting, the read timeout expires
and everything read so far is returned.  Yields (returned bytes, bytes left
in the buffer). -/
def readlineBytes : List Nat → List Nat × List Nat
  | [] => ([], [])
  | b :: rest =>
    if b == 10 then ([b], rest)
    else
      let (line, rem) := readlineBytes rest
      (b :: line, rem)

/-- Is the byte a UTF-8 continuation byte (0x80–0xBF)? -/
def isCont (b : Nat) : Bool :=
  128 ≤ b && b ≤ 191

/-- Valid second byte of a three-byte UTF-8 sequence with lead `b` (the
constraints CPython enforces: E0 needs A0–BF, ED needs 80–9F, the rest need
80–BF). -/
def cont2of3 (b b2 : Nat) : Bool :=
  if b == 224 then 160 ≤ b2 && b2 ≤ 191
  else if b == 237 then 128 ≤ b2 && b2 ≤ 159
  else isCont b2

/-- Valid second byte of a four-byte UTF-8 sequence with lead `b` (F0 needs
90–BF, F4 needs 80–8F, the rest need 80–BF). -/
def cont2of4 (b b2 : Nat) : Bool :=
  if b == 240 then 144 ≤ b2 && b2 ≤ 191
  else if b == 244 then 128 ≤ b2 && b2 ≤ 143
  else isCont b2

/-- Python `bytes.decode('utf-8', errors='ignore')`: undecodable bytes are
dropped instead of raising.  Following CPython's error handler, an invalid
maximal subpart is skipped: a bad lead byte is skipped alone, and a
truncated/broken multi-byte sequence is skipped together with the
continuation bytes that did conform. -/
def utf8DecodeIgnore : List Nat → List Char
  | [] => []
  | b :: rest =>
    if b < 128 then Char.ofNat b :: utf8DecodeIgnore rest
    else if 194 ≤ b && b ≤ 223 then
      match rest with
      | [] => []
      | b2 :: rest2 =>
        if isCont b2 then
          Char.ofNat ((b - 192) * 64 + (b2 - 128)) :: utf8DecodeIgnore rest2
        else utf8DecodeIgnore (b2 :: rest2)
    else if 224 ≤ b && b ≤ 239 then
      match rest with
      | [] => []
      | b2 :: rest2 =>
        if cont2of3 b b2 then
          match rest2 with
          | [] => []
          | b3 :: rest3 =>
            if isCont b3 then
              Char.ofNat ((b - 224) * 4096 + (b2 - 128) * 64 + (b3 - 128)) ::
                utf8DecodeIgnore rest3
            else utf8DecodeIgnore (b3 :: rest3)
        else utf8DecodeIgnore (b2 :: rest2)
    else if 240 ≤ b && b ≤ 244 then
      match rest with
      | [] => []
      | b2 :: rest2 =>
        if cont2of4 b b2 then
          match rest2 with
          | [] => []
          | b3 :: rest3 =>
            if isCont b3 then
              match rest3 with
              | [] => []
              | b4 :: rest4 =>
                if isCont b4 then
                  Char.ofNat ((b - 240) * 262144 + (b2 - 128) * 4096 +
                      (b3 - 128) * 64 + (b4 - 128)) :: utf8DecodeIgnore rest4
                else utf8DecodeIgnore (b4 :: rest4)
            else utf8DecodeIgnore (b3 :: rest3)
        else utf8DecodeIgnore (b2 :: rest2)
    else utf8DecodeIgnore rest

/-- The whitespace characters Python `str.strip()` removes, restricted to the
ASCII range (the Unicode-only space code points play no role here). -/
def isPySpace (c : Char) : Bool :=
  c == ' ' || c == '\t' || c == '\n' || c == '\r' || c == '\x0b' || c == '\x0c'

/-- Python `str.strip()`: drop leading and trailing whitespace. -/
def pyStrip (s : List Char) : List Char :=
  ((s.dropWhile isPySpace).reverse.dropWhile isPySpace).reverse

/-- Bytes of an ASCII string, used to build concrete receive buffers. -/
def asciiBytes (s : String) : List Nat :=
  s.data.map Char.toNat

/-! ## The connection registry: `SerialPortService` -/

/-- Result reported to the reboot completion callback: `callback(True, None)`
on success, `callback(False, str(e))` on an exception. -/
inductive RebootReport where
  | success
  | failure
  deriving Repr, DecidableEq

/-- State of `SerialPortService` (`src/app/services/serial_service.py`).
`connections` is the `Dict[str, serial.Serial]` with object references
modelled as allocation numbers into `handles`, the heap of every `Serial`
object created so far (Python keeps an object alive while a reference to it
is captured, e.g. by the reboot-completion lambda).  `rebootCallback` is the
`_complete_reboot_callback` field: when set, it is the lambda capturing the
serial-port object (its allocation number) whose invocation runs
`_complete_esp32_reboot`. -/
structure SerialPortService where
  baud_rate : Nat
  connections : List (String × Nat)
  handles : List (Nat × SerialConn)
  nextHandle : Nat
  rebootCallback : Option Nat
  deriving Repr, DecidableEq

/-- Dictionary lookup in the connections map (first entry wins, as keys are
unique in a Python dict). -/
def findConn : List (String × Nat) → String → Option Nat
  | [], _ => none
  | e :: rest, name => if e.1 == name then some e.2 else findConn rest name

/-- Dereference a captured object reference in the heap. -/
def getHandle : List (Nat × SerialConn) → Nat → Option SerialConn
  | [], _ => none
  | q :: rest, r => if q.1 == r then some q.2 else getHandle rest r

/-- Overwrite the object stored at reference `r` (Python object mutation). -/
def setEntry (r : Nat) (c : SerialConn) (q : Nat × SerialConn) : Nat × SerialConn :=
  if q.1 == r then (q.1, c) else q

/-- `serial_port.close()` applied to the object at reference `r`: pyserial
`close` marks the port not open (the bare `except: pass` around the call
swallows any error, so it is modelled as always succeeding). -/
def closeEntry (r : Nat) (q : Nat × SerialConn) : Nat × SerialConn :=
  if q.1 == r then (q.1, { q.2 with isOpen := false }) else q

def SerialPortService.lookupConn (svc : SerialPortService) (name : String) : Option Nat :=
  findConn svc.connections name

def SerialPortService.connKeys (svc : SerialPortService) : List String :=
  svc.connections.map Prod.fst

def SerialPortService.writeHandle (svc : SerialPortService) (r : Nat) (c : SerialConn) :
    SerialPortService :=
  { svc with handles := svc.handles.map (setEntry r c) }

/-- `SerialPortService.__init__(baud_rate)`: empty registry. -/
def SerialPortService.init (baud_rate : Nat) : SerialPortService :=
  { baud_rate := baud_rate, connections := [], handles := [], nextHandle := 0,
    rebootCallback := none }

/-- A freshly constructed `serial.Serial(port_name, baudrate, timeout)` object
(pyserial opens the port with DTR and RTS asserted and an empty receive
buffer); `f` fixes how this particular device instance will misbehave. -/
def newSerial (port_name : String) (f : DevFaults) : SerialConn :=
  { owner := port_name, isOpen := true, dtrState := true, rtsState := true,
    buffer := [], readErr := f.readErr, dtrErr := f.dtrErr, rtsErr := f.rtsErr }

/-- `SerialPortService.close_port(port_name)`: if the port is tracked, close
the handle and delete the dictionary entry; otherwise do nothing. -/
def SerialPortService.close_port (svc : SerialPortService) (port_name : String) :
    SerialPortService :=
  match svc.lookupConn port_name with
  | none => svc
  | some r =>
    { svc with
      handles := svc.handles.map (closeEntry r),
      connections := svc.connections.filter (fun e => !(e.1 == port_name)) }

/-- `SerialPortService.open_port(port_name)`: close any existing connection
for the name, then attempt `serial.Serial(...)`.  `outcome` is the device's
response: `some f` when the constructor succeeds (yielding a fresh open
handle with fault behaviour `f`), `none` when it raises one of the caught
exception classes (`SerialException`, `AttributeError`, `OSError`), in which
case `False` is returned and nothing is inserted. -/
def SerialPortService.open_port (svc : SerialPortService) (port_name : String)
    (outcome : Option DevFaults) : SerialPortService × Bool :=
  let svc1 := svc.close_port port_name
  match outcome with
  | none => (svc1, false)
  | some f =>
    let h := svc1.nextHandle
    ({ svc1 with
        handles := svc1.handles ++ [(h, newSerial port_name f)],
        connections := svc1.connections ++ [(port_name, h)],
        nextHandle := h + 1 }, true)

/-- `SerialPortService.close_all_ports()`: close every tracked port (the loop
iterates over a snapshot of the keys). -/
def SerialPortService.close_all_ports (svc : SerialPortService) : SerialPortService :=
  svc.connKeys.foldl (fun s p => s.close_port p) svc

/-- `SerialPortService.read_line(port_name)`: non-blocking poll of one port.
Returns the updated service state and the decoded line, if any.  The injected
`readErr` fault stands for a `SerialException`/`OSError` raised by
`in_waiting` or `readline`, which the code answers by closing and removing
the connection. -/
def SerialPortService.read_line (svc : SerialPortService) (port_name : String) :
    SerialPortService × Option String :=
  match svc.lookupConn port_name with
  | none => (svc, none)
  | some r =>
    match getHandle svc.handles r with
    | none => (svc, none)
    | some c =>
      if !c.isOpen then (svc, none)
      else if c.readErr then (svc.close_port port_name, none)
      else if c.buffer.length > 0 then
        let (lineBytes, rest) := readlineBytes c.buffer
        let svc' := svc.writeHandle r { c with buffer := rest }
        let line := pyStrip (utf8DecodeIgnore lineBytes)
        (svc', if line.isEmpty then none else some (String.mk line))
      else (svc, none)

/-- `SerialPortService.set_baud_rate(baud_rate)`: affects future opens only. -/
def SerialPortService.set_baud_rate (svc : SerialPortService) (baud_rate : Nat) :
    SerialPortService :=
  { svc with baud_rate := baud_rate }

/-- `SerialPortService.reconnect_all_ports()`: re-open every tracked port (the
loop iterates over a snapshot of the keys, which is also the returned list);
`outcomes` gives the device's response per port. -/
def SerialPortService.reconnect_all_ports (svc : SerialPortService)
    (outcomes : String → Option DevFaults) : SerialPortService × List String :=
  let port_names := svc.connKeys
  (port_names.foldl (fun s p => (s.open_port p (outcomes p)).1) svc, port_names)

/-- `SerialPortService.reboot_esp32(port_name, complete_callback)`: requires
the port to be tracked; toggles DTR low then RTS high, and only when a
`complete_callback` argument was supplied stores the completion lambda
capturing the serial-port object.  Returns the updated state, the boolean
result, and the control-line writes that reached the device. -/
def SerialPortService.reboot_esp32 (svc : SerialPortService) (port_name : String)
    (has_callback : Bool) : SerialPortService × Bool × List CtrlWrite :=
  match svc.lookupConn port_name with
  | none => (svc, false, [])
  | some r =>
    match getHandle svc.handles r with
    | none => (svc, false, [])
    | some c =>
      let (c1, w1, e1) := c.setDTR false
      if e1 then (svc.writeHandle r c1, false, w1.toList)
      else
        let (c2, w2, e2) := c1.setRTS true
        let svc' := svc.writeHandle r c2
        if e2 then (svc', false, w1.toList)
        else
          let svc'' := if has_callback then { svc' with rebootCallback := some r } else svc'
          (svc'', true, w1.toList ++ w2.toList)

/-- `SerialPortService._complete_esp32_reboot(serial_port, callback)`: runs on
the captured serial-port object `r`; restores RTS low then DTR high and
reports to the callback.  Returns the updated state, the report delivered to
the callback, and the control-line writes that reached the device. -/
def SerialPortService._complete_esp32_reboot (svc : SerialPortService) (r : Nat) :
    SerialPortService × RebootReport × List CtrlWrite :=
  match getHandle svc.handles r with
  | none => (svc, RebootReport.failure, [])
  | some c =>
    let (c1, w1, e1) := c.setRTS false
    if e1 then (svc.writeHandle r c1, RebootReport.failure, w1.toList)
    else
      let (c2, w2, e2) := c1.setDTR true
      let svc' := svc.writeHandle r c2
      if e2 then (svc', RebootReport.failure, w1.toList)
      else (svc', RebootReport.success, w1.toList ++ w2.toList)

/-- `SerialPortService.get_complete_reboot_callback()`:
`getattr(self, '_complete_reboot_callback', None)`. -/
def SerialPortService.get_complete_reboot_callback (svc : SerialPortService) : Option Nat :=
  svc.rebootCallback

/-- Environment action (not application code): bytes sent by the device are
appended to the receive buffer of the handle at reference `r`. -/
def SerialPortService.deviceRecv (svc : SerialPortService) (r : Nat) (bs : List Nat) :
    SerialPortService :=
  match getHandle svc.handles r with
  | none => svc
  | some c => svc.writeHandle r { c with buffer := c.buffer ++ bs }

/-! ## The UI session manager: `MainWindow` -/

/-- `ESP32_REBOOT_DELAY` from `src/app/config.py` (milliseconds). -/
def ESP32_REBOOT_DELAY : Nat := 100

/-- `TIMEOUT` from `src/app/config.py` (milliseconds, serial read timeout). -/
def TIMEOUT : Nat := 50

/-- `DEFAULT_BAUD_RATE` from `src/app/config.py`. -/
def DEFAULT_BAUD_RATE : Nat := 115200

/-- Placeholder row text used by `_populate_serial_ports` when no USB device
is attached. -/
def noDeviceMsg : String := "No USB devices connected"

/-- Session-management state of `MainWindow` (`src/app/ui/main_window.py`):
the owned `SerialPortService`, the texts of the rows of the port-list widget,
and the currently selected port.  Log formatting, display and the remaining
widgets are presentation glue with no effect on the session state and are
not modelled. -/
structure MainWindow where
  svc : SerialPortService
  portListItems : List String
  active_port : Option String
  deriving Repr, DecidableEq

/-- `MainWindow.__init__` session state: a fresh service at the default baud
rate, an empty port list, no selection. -/
def MainWindow.init : MainWindow :=
  { svc := SerialPortService.init DEFAULT_BAUD_RATE, portListItems := [],
    active_port := none }

/-- `MainWindow._start_serial_monitor(port)`: open the port through the
service and log the outcome (the log entry itself is presentation glue). -/
def MainWindow._start_serial_monitor (w : MainWindow) (port : String)
    (outcome : Option DevFaults) : MainWindow :=
  { w with svc := (w.svc.open_port port outcome).1 }

/-- First loop of `_populate_serial_ports`: every port present in the list
snapshot `current_ports` but absent from the discovered `ports` is closed and
its row removed. -/
def removeLoop (w : MainWindow) (current_ports ports : List String) : MainWindow :=
  match current_ports with
  | [] => w
  | port :: rest =>
    if ports.contains port then removeLoop w rest ports
    else
      removeLoop
        { w with svc := w.svc.close_port port,
                 portListItems := w.portListItems.erase port } rest ports

/-- Second loop of `_populate_serial_ports`: every discovered port absent from
the snapshot `current_ports` gets a new row and a monitor started; also
returns the ports for which an open was attempted, in order. -/
def addLoop (w : MainWindow) (current_ports ports : List String)
    (outcomes : String → Option DevFaults) : MainWindow × List String :=
  match ports with
  | [] => (w, [])
  | port :: rest =>
    if current_ports.contains port then addLoop w current_ports rest outcomes
    else
      let w1 := { w with portListItems := w.portListItems ++ [port] }
      let w2 := w1._start_serial_monitor port (outcomes port)
      let (w3, att) := addLoop w2 current_ports rest outcomes
      (w3, port :: att)

/-- `MainWindow._populate_serial_ports`, the discovery-reconciliation tick.
`ports` is the result of `get_available_usb_ports()` (a parameter, since it
reads OS state); `outcomes` is the device's response to each attempted open.
After the two loops the placeholder row is inserted when nothing is attached
and removed again once a device appears; the selection-restoring tail of the
method only moves the list cursor and is not modelled.  Returns the new state
and the ports for which an open was attempted. -/
def MainWindow._populate_serial_ports (w : MainWindow) (ports : List String)
    (outcomes : String → Option DevFaults) : MainWindow × List String :=
  let current_ports := w.portListItems
  let w1 := removeLoop w current_ports ports
  let (w2, attempts) := addLoop w1 current_ports ports outcomes
  let w3 :=
    if ports.isEmpty && w2.portListItems.isEmpty then
      { w2 with portListItems := [noDeviceMsg] }
    else if !ports.isEmpty && !w2.portListItems.isEmpty then
      match w2.portListItems with
      | [] => w2
      | first :: restItems =>
        if first == noDeviceMsg then { w2 with portListItems := restItems } else w2
    else w2
  (w3, attempts)

/-- `MainWindow._reboot_esp32`, the handler of the Reboot button: warns and
does nothing without a selection; otherwise calls
`serial_service.reboot_esp32(self.active_port)` — note: without passing any
`complete_callback` — and, on success, schedules via `QTimer.singleShot`
whatever `get_complete_reboot_callback()` returns, if anything.  Returns the
new state, the control-line writes performed synchronously, and the scheduled
completion (the captured serial-port reference), if one was scheduled. -/
def MainWindow._reboot_esp32 (w : MainWindow) : MainWindow × List CtrlWrite × Option Nat :=
  match w.active_port with
  | none => (w, [], none)
  | some port =>
    let (svc', success, writes) := w.svc.reboot_esp32 port false
    let w' := { w with svc := svc' }
    if success then
      match svc'.get_complete_reboot_callback with
      | some r => (w', writes, some r)
      | none => (w', writes, none)
    else (w', writes, none)

/-! ## Operation sequences over the session state -/

/-- One operation of the open/close/reconcile vocabulary, carrying the
device's responses. -/
inductive Op where
  | openOp (name : String) (outcome : Option DevFaults)
  | closeOp (name : String)
  | reconcileOp (ports : List String) (outcomes : String → Option DevFaults)

/-- Execute one operation on the session state. -/
def execOp (w : MainWindow) : Op → MainWindow
  | Op.openOp name outcome => { w with svc := (w.svc.open_port name outcome).1 }
  | Op.closeOp name => { w with svc := w.svc.close_port name }
  | Op.reconcileOp ports outcomes => (w._populate_serial_ports ports outcomes).1

/-- Execute a sequence of operations from a starting state. -/
def execOps (w : MainWindow) (ops : List Op) : MainWindow :=
  ops.foldl execOp w

/-! ## Concrete states used by the claims -/

/-- A device instance with no injected faults. -/
def faultFree : DevFaults := { readErr := false, dtrErr := false, rtsErr := false }

/-- A device instance whose RTS control-line update raises. -/
def faultyRTS : DevFaults := { readErr := false, dtrErr := false, rtsErr := true }

/-- A device instance whose read path raises. -/
def faultyRead : DevFaults := { readErr := true, dtrErr := false, rtsErr := false }

/-- Service with `/dev/ttyUSB0` open and healthy (handle reference 0). -/
def svcEx : SerialPortService :=
  ((SerialPortService.init 115200).open_port "/dev/ttyUSB0" (some faultFree)).1

/-- `svcEx` after the device sent `"hello\r\n"` followed by the partial line
`"world"` (twelve bytes waiting). -/
def svcData : SerialPortService :=
  svcEx.deviceRecv 0 (asciiBytes "hello\r\nworld")

/-- Window with `/dev/ttyUSB0` open, listed and selected. -/
def winEx : MainWindow :=
  { svc := svcEx, portListItems := ["/dev/ttyUSB0"], active_port := some "/dev/ttyUSB0" }

/-- `svcEx` after a reset sequence was begun through the service interface
with a completion callback supplied (the stored completion captures handle
reference 0). -/
def svcRebootBegun : SerialPortService :=
  (svcEx.reboot_esp32 "/dev/ttyUSB0" true).1

/-- `svcRebootBegun` after the port was closed before the reboot delay. -/
def svcClosedMidReset : SerialPortService :=
  svcRebootBegun.close_port "/dev/ttyUSB0"

/-! ## Basic lemmas about lookups and updates -/

theorem findConn_filter_self (l : List (String × Nat)) (p : String) :
    findConn (l.filter (fun e => !(e.1 == p))) p = none := by
  induction l with
  | nil => rfl
  | cons e rest ih =>
    by_cases h : e.1 = p
    · simpa [List.filter_cons, h] using ih
    · simpa [List.filter_cons, findConn, h] using ih

theorem findConn_filter_ne (l : List (String × Nat)) (p q : String) (hpq : q ≠ p) :
    findConn (l.filter (fun e => !(e.1 == p))) q = findConn l q := by
  induction l with
  | nil => rfl
  | cons e rest ih =>
    by_cases h : e.1 = p
    · have h2 : ¬(p = q) := fun hc => hpq hc.symm
      simpa [List.filter_cons, findConn, h, h2] using ih
    · by_cases h2 : e.1 = q
      · simp [List.filter_cons, findConn, h, h2, hpq]
      · simpa [List.filter_cons, findConn, h, h2] using ih

theorem findConn_eq_none_of_not_mem (l : List (String × Nat)) (p : String)
    (h : ∀ e ∈ l, e.1 ≠ p) : findConn l p = none := by
  induction l with
  | nil => rfl
  | cons e rest ih =>
    have he : e.1 ≠ p := h e (List.mem_cons_self e rest)
    simp only [findConn, beq_iff_eq, he, if_false]
    exact ih (fun x hx => h x (List.mem_cons_of_mem e hx))

theorem findConn_mem {l : List (String × Nat)} {p : String} {r : Nat}
    (h : findConn l p = some r) : (p, r) ∈ l := by
  induction l with
  | nil => simp [findConn] at h
  | cons e rest ih =>
    by_cases he : e.1 = p
    · simp only [findConn, beq_iff_eq, he, if_true, Option.some.injEq] at h
      have : (p, r) = e := by
        rcases e with ⟨k, v⟩
        simp only at he h
        rw [he, h]
      rw [this]
      exact List.mem_cons_self e rest
    · simp only [findConn, beq_iff_eq, he, if_false] at h
      exact List.mem_cons_of_mem e (ih h)

theorem findConn_append_none {l : List (String × Nat)} {p : String}
    (h : findConn l p = none) (l' : List (String × Nat)) :
    findConn (l ++ l') p = findConn l' p := by
  induction l with
  | nil => rfl
  | cons e rest ih =>
    by_cases he : e.1 = p
    · simp [findConn, he] at h
    · simp only [findConn, beq_iff_eq, he, if_false] at h
      simp only [List.cons_append, findConn, beq_iff_eq, he, if_false]
      exact ih h

theorem findConn_of_mem_nodup {l : List (String × Nat)} {p : String} {r : Nat}
    (hnd : (l.map Prod.fst).Nodup) (h : (p, r) ∈ l) : findConn l p = some r := by
  induction l with
  | nil => simp at h
  | cons e rest ih =>
    simp only [List.map_cons, List.nodup_cons] at hnd
    rcases List.mem_cons.mp h with h1 | h2
    · rw [← h1]
      simp [findConn]
    · have he : e.1 ≠ p := by
        intro hc
        exact hnd.1 (by
          rw [hc]
          exact List.mem_map.mpr ⟨(p, r), h2, rfl⟩)
      simp only [findConn, beq_iff_eq, he, if_false]
      exact ih hnd.2 h2

theorem getHandle_mem {hs : List (Nat × SerialConn)} {r : Nat} {c : SerialConn}
    (h : getHandle hs r = some c) : (r, c) ∈ hs := by
  induction hs with
  | nil => simp [getHandle] at h
  | cons q rest ih =>
    by_cases hq : q.1 = r
    · simp only [getHandle, beq_iff_eq, hq, if_true, Option.some.injEq] at h
      have : (r, c) = q := by
        rcases q with ⟨i, d⟩
        simp only at hq h
        rw [hq, h]
      rw [this]
      exact List.mem_cons_self q rest
    · simp only [getHandle, beq_iff_eq, hq, if_false] at h
      exact List.mem_cons_of_mem q (ih h)

theorem getHandle_append_some {hs : List (Nat × SerialConn)} {r : Nat} {c : SerialConn}
    (h : getHandle hs r = some c) (t : List (Nat × SerialConn)) :
    getHandle (hs ++ t) r = some c := by
  induction hs with
  | nil => simp [getHandle] at h
  | cons q rest ih =>
    by_cases hq : q.1 = r
    · simp only [getHandle, beq_iff_eq, hq, if_true] at h
      simp [getHandle, hq, h]
    · simp only [getHandle, beq_iff_eq, hq, if_false] at h
      simp only [List.cons_append, getHandle, beq_iff_eq, hq, if_false]
      exact ih h

theorem getHandle_append_none {hs : List (Nat × SerialConn)} {r : Nat}
    (h : getHandle hs r = none) (t : List (Nat × SerialConn)) :
    getHandle (hs ++ t) r = getHandle t r := by
  induction hs with
  | nil => rfl
  | cons q rest ih =>
    by_cases hq : q.1 = r
    · simp [getHandle, hq] at h
    · simp only [getHandle, beq_iff_eq, hq, if_false] at h
      simp only [List.cons_append, getHandle, beq_iff_eq, hq, if_false]
      exact ih h

theorem getHandle_eq_none_of_not_mem (hs : List (Nat × SerialConn)) (r : Nat)
    (h : ∀ q ∈ hs, q.1 ≠ r) : getHandle hs r = none := by
  induction hs with
  | nil => rfl
  | cons q rest ih =>
    have hq : q.1 ≠ r := h q (List.mem_cons_self q rest)
    simp only [getHandle, beq_iff_eq, hq, if_false]
    exact ih (fun x hx => h x (List.mem_cons_of_mem q hx))

theorem getHandle_map_closeEntry_self (hs : List (Nat × SerialConn)) (r : Nat) :
    getHandle (hs.map (closeEntry r)) r
      = (getHandle hs r).map (fun c => { c with isOpen := false }) := by
  induction hs with
  | nil => rfl
  | cons q rest ih =>
    by_cases hq : q.1 = r
    · simp [getHandle, closeEntry, hq]
    · simp [getHandle, closeEntry, hq, ih]

theorem getHandle_map_closeEntry_ne (hs : List (Nat × SerialConn)) (r r' : Nat)
    (h : r ≠ r') : getHandle (hs.map (closeEntry r')) r = getHandle hs r := by
  induction hs with
  | nil => rfl
  | cons q rest ih =>
    by_cases hq : q.1 = r'
    · have h2 : ¬(r' = r) := fun hc => h hc.symm
      simp [getHandle, closeEntry, hq, h2, ih]
    · by_cases hq2 : q.1 = r
      · simp [getHandle, closeEntry, hq, hq2, h]
      · simp [getHandle, closeEntry, hq, hq2, ih]

theorem getHandle_map_setEntry_self (hs : List (Nat × SerialConn)) (r : Nat)
    (c : SerialConn) :
    getHandle (hs.map (setEntry r c)) r = (getHandle hs r).map (fun _ => c) := by
  induction hs with
  | nil => rfl
  | cons q rest ih =>
    by_cases hq : q.1 = r
    · simp [getHandle, setEntry, hq]
    · simp [getHandle, setEntry, hq, ih]

theorem getHandle_map_setEntry_ne (hs : List (Nat × SerialConn)) (r r' : Nat)
    (c : SerialConn) (h : r ≠ r') :
    getHandle (hs.map (setEntry r' c)) r = getHandle hs r := by
  induction hs with
  | nil => rfl
  | cons q rest ih =>
    by_cases hq : q.1 = r'
    · have h2 : ¬(r' = r) := fun hc => h hc.symm
      simp [getHandle, setEntry, hq, h2, ih]
    · by_cases hq2 : q.1 = r
      · simp [getHandle, setEntry, hq, hq2, h]
      · simp [getHandle, setEntry, hq, hq2, ih]

/-! ## Basic lemmas about `close_port` and `open_port` -/

theorem close_port_eq_of_none {svc : SerialPortService} {p : String}
    (h : svc.lookupConn p = none) : svc.close_port p = svc := by
  simp [SerialPortService.close_port, h]

theorem not_mem_of_findConn_eq_none {l : List (String × Nat)} {p : String}
    (h : findConn l p = none) : ∀ e ∈ l, e.1 ≠ p := by
  induction l with
  | nil => intro e he; simp at he
  | cons e rest ih =>
    intro x hx
    by_cases he : e.1 = p
    · simp [findConn, he] at h
    · simp only [findConn, beq_iff_eq, he, if_false] at h
      rcases List.mem_cons.mp hx with h1 | h2
      · rw [h1]; exact he
      · exact ih h x h2

theorem filter_eq_self_of_findConn_none {l : List (String × Nat)} {p : String}
    (h : findConn l p = none) : l.filter (fun e => !(e.1 == p)) = l := by
  induction l with
  | nil => rfl
  | cons e rest ih =>
    by_cases he : e.1 = p
    · simp [findConn, he] at h
    · simp only [findConn, beq_iff_eq, he, if_false] at h
      simp [List.filter_cons, he, ih h]

theorem close_port_connections (svc : SerialPortService) (p : String) :
    (svc.close_port p).connections
      = svc.connections.filter (fun e => !(e.1 == p)) := by
  unfold SerialPortService.close_port
  cases h : svc.lookupConn p with
  | none =>
    simp only
    rw [filter_eq_self_of_findConn_none h]
  | some r => rfl

theorem lookupConn_close_port_self (svc : SerialPortService) (p : String) :
    (svc.close_port p).lookupConn p = none := by
  show findConn (svc.close_port p).connections p = none
  rw [close_port_connections]
  exact findConn_filter_self _ _

theorem lookupConn_close_port_ne (svc : SerialPortService) (p q : String)
    (h : q ≠ p) : (svc.close_port p).lookupConn q = svc.lookupConn q := by
  show findConn (svc.close_port p).connections q = findConn svc.connections q
  rw [close_port_connections]
  exact findConn_filter_ne _ _ _ h

theorem open_port_none (svc : SerialPortService) (p : String) :
    svc.open_port p none = (svc.close_port p, false) := rfl

theorem close_port_handle_closed {svc : SerialPortService} {p : String} {r : Nat}
    (h : svc.lookupConn p = some r) :
    getHandle (svc.close_port p).handles r
      = (getHandle svc.handles r).map (fun c => { c with isOpen := false }) := by
  unfold SerialPortService.close_port
  rw [h]
  exact getHandle_map_closeEntry_self _ _

theorem open_port_handle_closed {svc : SerialPortService} {p : String} {r : Nat}
    {c : SerialConn} (o : Option DevFaults) (h : svc.lookupConn p = some r)
    (hc : getHandle svc.handles r = some c) :
    getHandle ((svc.open_port p o).1).handles r = some { c with isOpen := false } := by
  have hclosed : getHandle (svc.close_port p).handles r
      = some { c with isOpen := false } := by
    rw [close_port_handle_closed h, hc]
    rfl
  cases o with
  | none => simpa [SerialPortService.open_port] using hclosed
  | some f =>
    simp only [SerialPortService.open_port]
    exact getHandle_append_some hclosed _

/-! ## C3: error behaviour of `open_port` -/

/-- C3 (counterexample): the claim says a failed `open_port` leaves the
registry holding an internal Failed-state entry for the identifier; in fact
after a failed open of `/dev/ttyUSB0` on a fresh service the registry holds
no entry at all for it (and the result is `false`). -/
theorem c3_failed_open_leaves_no_entry_cex :
    (((SerialPortService.init 115200).open_port "/dev/ttyUSB0" none).1).lookupConn
        "/dev/ttyUSB0" = none
      ∧ ((SerialPortService.init 115200).open_port "/dev/ttyUSB0" none).2 = false := by
  constructor <;> rfl

/-- C3 (amended): for every identifier and device-error outcome, `open_port`
first closes any existing connection at the identifier (the prior handle, if
any, ends up closed), never raises to its caller (it is a total function into
a boolean), and on device failure returns `false` leaving the registry with
no entry at all for the identifier (failures are not recorded). -/
theorem c3_open_port_error_behavior (svc : SerialPortService) (p : String) :
    svc.open_port p none = (svc.close_port p, false)
      ∧ ((svc.open_port p none).1).lookupConn p = none
      ∧ (∀ o r c, svc.lookupConn p = some r → getHandle svc.handles r = some c →
          getHandle ((svc.open_port p o).1).handles r
            = some { c with isOpen := false }) := by
  refine ⟨rfl, ?_, ?_⟩
  · rw [open_port_none]
    exact lookupConn_close_port_self svc p
  · intro o r c h hc
    exact open_port_handle_closed o h hc

/-- Witness for C3 at a concrete input: on `svcEx` (which has `/dev/ttyUSB0`
open at handle 0) a failed re-open leaves no entry and the prior handle
closed. -/
theorem c3_open_port_error_behavior_witness :
    ((svcEx.open_port "/dev/ttyUSB0" none).1).lookupConn "/dev/ttyUSB0" = none
      ∧ getHandle ((svcEx.open_port "/dev/ttyUSB0" none).1).handles 0
          = some { newSerial "/dev/ttyUSB0" faultFree with isOpen := false } := by
  refine ⟨(c3_open_port_error_behavior svcEx "/dev/ttyUSB0").2.1, ?_⟩
  exact (c3_open_port_error_behavior svcEx "/dev/ttyUSB0").2.2 none 0
    (newSerial "/dev/ttyUSB0" faultFree) (by decide) (by decide)

/-! ## C8: reset on a closed or absent target -/

/-- C8: `reboot_esp32` on an identifier absent from the registry (closed
connections are removed from it by `close_port`, so Closed implies absent)
returns `false` immediately and performs zero control-line writes; in
particular this holds for any port right after it was closed. -/
theorem c8_reboot_on_absent_port :
    (∀ (svc : SerialPortService) (p : String) (b : Bool),
        svc.lookupConn p = none → svc.reboot_esp32 p b = (svc, false, []))
      ∧ (∀ (svc : SerialPortService) (p : String) (b : Bool),
          (svc.close_port p).reboot_esp32 p b = (svc.close_port p, false, [])) := by
  have main : ∀ (svc : SerialPortService) (p : String) (b : Bool),
      svc.lookupConn p = none → svc.reboot_esp32 p b = (svc, false, []) := by
    intro svc p b h
    unfold SerialPortService.reboot_esp32
    rw [h]
  exact ⟨main, fun svc p b => main _ p b (lookupConn_close_port_self svc p)⟩

/-- Witness for C8 at a concrete input: a fresh service does not track
`/dev/ttyUSB0`, and rebooting it returns `false` with no writes; likewise
after closing the open port of `svcEx`. -/
theorem c8_reboot_on_absent_port_witness :
    (SerialPortService.init 115200).reboot_esp32 "/dev/ttyUSB0" false
        = (SerialPortService.init 115200, false, [])
      ∧ (svcEx.close_port "/dev/ttyUSB0").reboot_esp32 "/dev/ttyUSB0" false
        = (svcEx.close_port "/dev/ttyUSB0", false, []) := by
  exact ⟨c8_reboot_on_absent_port.1 (SerialPortService.init 115200) "/dev/ttyUSB0" false
      (by decide),
    c8_reboot_on_absent_port.2 svcEx "/dev/ttyUSB0" false⟩

/-! ## C2: the reset completion action after a premature close -/

/-- C2 (counterexample): begin a reset on the open `/dev/ttyUSB0` with a
completion callback supplied, then close the port before the delay elapses.
The claim says the completion action checks identifier existence and reports
failure; in fact the stored completion still holds the captured handle
(reference 0) and, run against it, performs no device write but reports
success — `callback(True, None)` — to its callback. -/
theorem c2_completion_reports_success_cex :
    svcClosedMidReset.get_complete_reboot_callback = some 0
      ∧ (svcClosedMidReset._complete_esp32_reboot 0).2.1 = RebootReport.success
      ∧ (svcClosedMidReset._complete_esp32_reboot 0).2.2 = [] := by
  refine ⟨rfl, rfl, rfl⟩

/-- C2 (amended): when the target connection was closed before the completion
fires, the completion action operates on the captured handle (it performs no
identifier lookup); because pyserial control-line setters on a closed port
only record the requested state, it performs no device write — and it
reports success, not failure, to its callback. -/
theorem c2_completion_on_closed_handle (svc : SerialPortService) (r : Nat)
    (c : SerialConn) (hc : getHandle svc.handles r = some c)
    (hclosed : c.isOpen = false) :
    (svc._complete_esp32_reboot r).2.1 = RebootReport.success
      ∧ (svc._complete_esp32_reboot r).2.2 = [] := by
  unfold SerialPortService._complete_esp32_reboot
  rw [hc]
  simp [SerialConn.setRTS, SerialConn.setDTR, hclosed]

/-- Witness for C2 at the concrete mid-reset-closed state. -/
theorem c2_completion_on_closed_handle_witness :
    (svcClosedMidReset._complete_esp32_reboot 0).2.1 = RebootReport.success
      ∧ (svcClosedMidReset._complete_esp32_reboot 0).2.2 = [] :=
  c2_completion_on_closed_handle svcClosedMidReset 0
    { newSerial "/dev/ttyUSB0" faultFree with
        isOpen := false, dtrState := false, rtsState := true }
    (by decide) (by decide)

/-! ## C10: `reboot_esp32` is not atomic on device error -/

/-- C10: on a device whose DTR update succeeds but whose RTS update raises,
`reboot_esp32` returns `false` after exactly one control-line write — the
DTR line was driven low — and performs no compensating write to restore
it. -/
theorem c10_reboot_partial_failure (svc : SerialPortService) (p : String)
    (b : Bool) (r : Nat) (c : SerialConn) (hp : svc.lookupConn p = some r)
    (hc : getHandle svc.handles r = some c) (hopen : c.isOpen = true)
    (hdtr : c.dtrErr = false) (hrts : c.rtsErr = true) :
    (svc.reboot_esp32 p b).2.1 = false
      ∧ (svc.reboot_esp32 p b).2.2 = [CtrlWrite.dtr false] := by
  simp [SerialPortService.reboot_esp32, hp, hc, SerialConn.setDTR,
    SerialConn.setRTS, hopen, hdtr, hrts]

/-- Witness for C10: a service whose only port sits on a device with a
faulty RTS line. -/
theorem c10_reboot_partial_failure_witness :
    ((((SerialPortService.init 115200).open_port "p1" (some faultyRTS)).1).reboot_esp32
        "p1" false).2.1 = false
      ∧ ((((SerialPortService.init 115200).open_port "p1" (some faultyRTS)).1).reboot_esp32
        "p1" false).2.2 = [CtrlWrite.dtr false] :=
  c10_reboot_partial_failure _ "p1" false 0 (newSerial "p1" faultyRTS)
    (by decide) (by decide) (by decide) (by decide) (by decide)

/-! ## C1: the scheduled reset completion never exists -/

/-- C1 (code evaluated at the failing input): on a window whose selected port
`/dev/ttyUSB0` is open and healthy, the Reboot handler performs the two
assert writes (DTR low, RTS high) synchronously, but — because
`reboot_esp32` is invoked without a `complete_callback`, so
`_complete_reboot_callback` is never stored — `get_complete_reboot_callback`
yields nothing and no completion is scheduled: the deassert pattern is never
written, no matter how long one waits after `ESP32_REBOOT_DELAY`. -/
theorem c1_reboot_completion_never_scheduled :
    (winEx._reboot_esp32).2.1 = [CtrlWrite.dtr false, CtrlWrite.rts true]
      ∧ (winEx._reboot_esp32).2.2 = none
      ∧ (winEx._reboot_esp32).1.svc.get_complete_reboot_callback = none
      ∧ (winEx._reboot_esp32).1.svc.rebootCallback = none := by
  refine ⟨rfl, rfl, rfl, rfl⟩

/-! ## C6: line extraction by `read_line` -/

/-- C6 (counterexample): with the twelve bytes `"hello\r\nworld"` waiting on
the open `/dev/ttyUSB0`, the first poll returns `"hello"` as the claim says,
but the second poll — contrary to the claim that it returns nothing until
the remainder completes a line — returns `"world"`: `readline` hands back
the partial line when the read timeout expires. -/
theorem c6_partial_line_returned_cex :
    (svcData.read_line "/dev/ttyUSB0").2 = some "hello"
      ∧ ((svcData.read_line "/dev/ttyUSB0").1.read_line "/dev/ttyUSB0").2
          = some "world" := by
  refine ⟨rfl, rfl⟩

/-- C6 (amended): when a terminator is waiting, `read_line` returns the
decoded line with leading as well as trailing whitespace trimmed
(`str.strip()` trims both ends) and undecodable bytes dropped rather than
raising; when only a partial line without terminator is waiting, the poll
returns that partial data as a line once the read timeout expires, rather
than nothing.  Concretely: `"  hi  \r\n"` yields `"hi"`; `"hi\xff!\n"`
yields `"hi!"` with the undecodable byte 0xFF dropped; and with
`"hello\r\nworld"` waiting the first poll yields `"hello"` and the second
yields the partial `"world"`. -/
theorem c6_poll_line_extraction_amended :
    ((svcEx.deviceRecv 0 (asciiBytes "  hi  \r\n")).read_line "/dev/ttyUSB0").2
        = some "hi"
      ∧ ((svcEx.deviceRecv 0 [104, 105, 255, 33, 10]).read_line "/dev/ttyUSB0").2
        = some "hi!"
      ∧ (svcData.read_line "/dev/ttyUSB0").2 = some "hello"
      ∧ ((svcData.read_line "/dev/ttyUSB0").1.read_line "/dev/ttyUSB0").2
        = some "world" := by
  refine ⟨rfl, rfl, rfl, rfl⟩

/-! ## Lemmas about `pyStrip` -/

theorem dropWhile_head_false {α : Type} (p : α → Bool) :
    ∀ (l : List α) (a : α) (t : List α), l.dropWhile p = a :: t → p a = false := by
  intro l
  induction l with
  | nil => intro a t h; simp [List.dropWhile] at h
  | cons b bs ih =>
    intro a t h
    cases hb : p b with
    | true =>
      simp only [List.dropWhile, hb] at h
      exact ih a t h
    | false =>
      simp only [List.dropWhile, hb, List.cons.injEq] at h
      rw [← h.1]
      exact hb

theorem dropWhile_eq_self_of_head {α : Type} (p : α → Bool) (l : List α)
    (h : ∀ a t, l = a :: t → p a = false) : l.dropWhile p = l := by
  cases l with
  | nil => rfl
  | cons a t => simp [List.dropWhile, h a t rfl]

theorem dropWhile_suffix_decomp {α : Type} (p : α → Bool) :
    ∀ l : List α, ∃ w, l = w ++ l.dropWhile p := by
  intro l
  induction l with
  | nil => exact ⟨[], rfl⟩
  | cons a t ih =>
    cases ha : p a with
    | true =>
      obtain ⟨w, hw⟩ := ih
      refine ⟨a :: w, ?_⟩
      simp only [List.dropWhile, ha, List.cons_append]
      rw [← hw]
    | false =>
      refine ⟨[], ?_⟩
      simp [List.dropWhile, ha]

/-- `str.strip()` is idempotent: a stripped string strips to itself. -/
theorem pyStrip_idem (l : List Char) : pyStrip (pyStrip l) = pyStrip l := by
  unfold pyStrip
  cases hBe : (l.dropWhile isPySpace).reverse.dropWhile isPySpace with
  | nil => simp [hBe]
  | cons b tB =>
    have hbfalse : isPySpace b = false :=
      dropWhile_head_false isPySpace (l.dropWhile isPySpace).reverse b tB hBe
    obtain ⟨a, tA, hAc⟩ : ∃ a tA, l.dropWhile isPySpace = a :: tA := by
      cases hAe : l.dropWhile isPySpace with
      | nil => rw [hAe] at hBe; simp at hBe
      | cons x y => exact ⟨x, y, rfl⟩
    have hafalse : isPySpace a = false := dropWhile_head_false isPySpace l a tA hAc
    obtain ⟨w, hw⟩ := dropWhile_suffix_decomp isPySpace (l.dropWhile isPySpace).reverse
    have hlastB : ((l.dropWhile isPySpace).reverse.dropWhile isPySpace).getLast?
        = some a := by
      have h2 : (l.dropWhile isPySpace).reverse.getLast? = some a := by
        rw [hAc]
        rw [List.getLast?_reverse]
        rfl
      rw [hw] at h2
      rwa [List.getLast?_append_of_ne_nil w (by rw [hBe]; exact List.cons_ne_nil b tB)]
        at h2
    have hheadRev : (((l.dropWhile isPySpace).reverse.dropWhile isPySpace).reverse).head?
        = some a := by
      rw [List.head?_reverse]
      exact hlastB
    have hstep1 : (((l.dropWhile isPySpace).reverse.dropWhile isPySpace).reverse).dropWhile
        isPySpace = ((l.dropWhile isPySpace).reverse.dropWhile isPySpace).reverse := by
      apply dropWhile_eq_self_of_head
      intro x t hx
      rw [hx] at hheadRev
      simp only [List.head?_cons, Option.some.injEq] at hheadRev
      rw [hheadRev]
      exact hafalse
    have hstep2 : ((l.dropWhile isPySpace).reverse.dropWhile isPySpace).dropWhile
        isPySpace = (l.dropWhile isPySpace).reverse.dropWhile isPySpace := by
      apply dropWhile_eq_self_of_head
      intro x t hx
      rw [hBe] at hx
      injection hx with hx1 _
      rw [← hx1]
      exact hbfalse
    rw [← hBe, hstep1, List.reverse_reverse, hstep2]

/-! ## C9: `read_line` never yields an empty string -/

/-- C9: every string `read_line` returns is non-empty, already stripped, and
hence non-empty after trimming; and whenever the line extracted from the
waiting bytes consists only of whitespace or terminator characters (its
stripped form is empty), `read_line` reports nothing. -/
theorem c9_poll_never_empty :
    (∀ (svc : SerialPortService) (p : String) (s : String),
        (svc.read_line p).2 = some s →
          s ≠ "" ∧ pyStrip s.data = s.data ∧ pyStrip s.data ≠ [])
      ∧ (∀ (svc : SerialPortService) (p : String) (r : Nat) (c : SerialConn),
          svc.lookupConn p = some r → getHandle svc.handles r = some c →
          pyStrip (utf8DecodeIgnore (readlineBytes c.buffer).1) = [] →
          (svc.read_line p).2 = none) := by
  constructor
  · intro svc p s h
    unfold SerialPortService.read_line at h
    split at h
    · simp at h
    · split at h
      · simp at h
      · split at h
        · simp at h
        · split at h
          · simp at h
          · split at h
            · split at h
              simp only [Prod.snd] at h
              split at h
              · simp at h
              · next hempty =>
                simp only [Option.some.injEq] at h
                have hdata := congrArg String.data h
                simp only at hdata
                rw [hdata] at hempty
                have hne : s.data ≠ [] := by
                  intro hc
                  rw [hc] at hempty
                  simp at hempty
                refine ⟨?_, ?_, ?_⟩
                · intro hse
                  rw [hse] at hne
                  simp at hne
                · rw [← hdata]
                  exact pyStrip_idem _
                · rw [← hdata, pyStrip_idem, hdata]
                  exact hne
            · simp at h
  · intro svc p r c h1 h2 hws
    unfold SerialPortService.read_line
    simp only [h1, h2]
    by_cases hopen : c.isOpen
    · by_cases herr : c.readErr
      · simp [hopen, herr]
      · by_cases hbuf : c.buffer.length > 0
        · rcases hsplit : readlineBytes c.buffer with ⟨lb, rs⟩
          rw [hsplit] at hws
          simp only at hws
          simp [hopen, herr, hbuf, hsplit, hws]
        · simp [hopen, herr, hbuf]
    · simp [hopen]

/-- Witness for C9: the concrete poll of `"hello\r\n..."` yields the
non-empty stripped `"hello"`, and a waiting whitespace-only line
`"  \r\n"` yields nothing. -/
theorem c9_poll_never_empty_witness :
    (("hello" : String) ≠ "" ∧ pyStrip ("hello" : String).data = ("hello" : String).data
        ∧ pyStrip ("hello" : String).data ≠ [])
      ∧ ((svcEx.deviceRecv 0 (asciiBytes "  \r\n")).read_line "/dev/ttyUSB0").2 = none :=
  ⟨c9_poll_never_empty.1 svcData "/dev/ttyUSB0" "hello" (by decide),
    c9_poll_never_empty.2 (svcEx.deviceRecv 0 (asciiBytes "  \r\n")) "/dev/ttyUSB0" 0
      { newSerial "/dev/ttyUSB0" faultFree with buffer := asciiBytes "  \r\n" }
      (by decide) (by decide) (by decide)⟩

/-! ## C7: a read error closes and removes the connection, with no retry -/

theorem lookupConn_close_port_none (svc : SerialPortService) (x q : String)
    (h : svc.lookupConn q = none) : (svc.close_port x).lookupConn q = none := by
  show findConn (svc.close_port x).connections q = none
  rw [close_port_connections]
  apply findConn_eq_none_of_not_mem
  intro e he
  exact not_mem_of_findConn_eq_none h e (List.mem_of_mem_filter he)

theorem close_port_nextHandle (svc : SerialPortService) (p : String) :
    (svc.close_port p).nextHandle = svc.nextHandle := by
  unfold SerialPortService.close_port
  cases h : svc.lookupConn p <;> rfl

theorem lookupConn_open_port_some (svc : SerialPortService) (p : String)
    (f : DevFaults) :
    ((svc.open_port p (some f)).1).lookupConn p = some svc.nextHandle := by
  show findConn ((svc.open_port p (some f)).1).connections p = some svc.nextHandle
  simp only [SerialPortService.open_port]
  rw [findConn_append_none (lookupConn_close_port_self svc p) _, close_port_nextHandle]
  simp [findConn]

theorem lookupConn_open_port_ne (svc : SerialPortService) (p q : String)
    (o : Option DevFaults) (hne : q ≠ p) (h : svc.lookupConn q = none) :
    ((svc.open_port p o).1).lookupConn q = none := by
  have hclosed : (svc.close_port p).lookupConn q = none :=
    lookupConn_close_port_none svc p q h
  cases o with
  | none => simpa [SerialPortService.open_port] using hclosed
  | some f =>
    show findConn ((svc.open_port p (some f)).1).connections q = none
    simp only [SerialPortService.open_port]
    rw [findConn_append_none hclosed _]
    have hpq : ¬(p = q) := fun hc => hne hc.symm
    simp [findConn, hpq]

theorem removeLoop_lookup_none (cur : List String) (w : MainWindow)
    (ports : List String) (p : String) (h : w.svc.lookupConn p = none) :
    ((removeLoop w cur ports).svc).lookupConn p = none := by
  induction cur generalizing w with
  | nil => exact h
  | cons port rest ih =>
    unfold removeLoop
    by_cases hc : ports.contains port
    · simp only [hc, if_true]
      exact ih w h
    · simp only [hc, if_false]
      exact ih _ (lookupConn_close_port_none w.svc port p h)

theorem addLoop_lookup_none (ports : List String) (w : MainWindow)
    (cur : List String) (outs : String → Option DevFaults) (p : String)
    (hp : cur.contains p = true) (h : w.svc.lookupConn p = none) :
    (((addLoop w cur ports outs).1).svc).lookupConn p = none := by
  induction ports generalizing w with
  | nil => exact h
  | cons port rest ih =>
    unfold addLoop
    by_cases hc : cur.contains port
    · simp only [hc, if_true]
      exact ih w h
    · simp only [hc, if_false]
      have hne : p ≠ port := by
        intro he
        rw [he] at hp
        exact hc hp
      exact ih _ (lookupConn_open_port_ne w.svc port p (outs port) hne h)

/-- The placeholder bookkeeping at the end of `_populate_serial_ports` only
touches the list widget, never the service. -/
theorem populate_svc_eq (w : MainWindow) (ports : List String)
    (outs : String → Option DevFaults) :
    ((w._populate_serial_ports ports outs).1).svc
      = ((addLoop (removeLoop w w.portListItems ports) w.portListItems ports
          outs).1).svc := by
  unfold MainWindow._populate_serial_ports
  simp only
  split
  · rfl
  · split
    · split
      · rfl
      · split <;> rfl
    · rfl

theorem populate_lookup_none (w : MainWindow) (ports : List String)
    (outs : String → Option DevFaults) (p : String)
    (hp : w.portListItems.contains p = true) (h : w.svc.lookupConn p = none) :
    (((w._populate_serial_ports ports outs).1).svc).lookupConn p = none := by
  rw [populate_svc_eq]
  exact addLoop_lookup_none ports _ w.portListItems outs p hp
    (removeLoop_lookup_none w.portListItems w ports p h)

/-- C7: when the device raises during the read attempt, `read_line` closes
and removes that connection as a side effect of the same call and reports
nothing; the identifier then stays absent — a further poll is a no-op
returning nothing, and the reconciliation tick never re-opens a port that is
still shown in the list — until an explicit open (e.g. via `reconnect_all`)
re-adds it. -/
theorem c7_read_error_closes_connection (svc : SerialPortService) (p : String)
    (r : Nat) (c : SerialConn) (h1 : svc.lookupConn p = some r)
    (h2 : getHandle svc.handles r = some c) (hopen : c.isOpen = true)
    (herr : c.readErr = true) :
    svc.read_line p = (svc.close_port p, none)
      ∧ (svc.close_port p).lookupConn p = none
      ∧ (svc.close_port p).read_line p = (svc.close_port p, none)
      ∧ (∀ (w : MainWindow) (ports : List String) (outs : String → Option DevFaults),
          w.svc = svc.close_port p → w.portListItems.contains p = true →
          (((w._populate_serial_ports ports outs).1).svc).lookupConn p = none)
      ∧ (∀ f : DevFaults,
          (((svc.close_port p).open_port p (some f)).1).lookupConn p
            = some svc.nextHandle) := by
  have hread : svc.read_line p = (svc.close_port p, none) := by
    unfold SerialPortService.read_line
    simp [h1, h2, hopen, herr]
  have habsent := lookupConn_close_port_self svc p
  refine ⟨hread, habsent, ?_, ?_, ?_⟩
  · unfold SerialPortService.read_line
    simp [habsent]
  · intro w ports outs hw hp
    exact populate_lookup_none w ports outs p hp (hw ▸ habsent)
  · intro f
    rw [lookupConn_open_port_some, close_port_nextHandle]

/-- Witness for C7: a service whose `/dev/ttyUSB0` sits on a device whose
read path raises. -/
theorem c7_read_error_closes_connection_witness :
    (((SerialPortService.init 115200).open_port "/dev/ttyUSB0"
        (some faultyRead)).1).read_line "/dev/ttyUSB0"
      = ((((SerialPortService.init 115200).open_port "/dev/ttyUSB0"
        (some faultyRead)).1).close_port "/dev/ttyUSB0", none)
    ∧ ((((SerialPortService.init 115200).open_port "/dev/ttyUSB0"
        (some faultyRead)).1).close_port "/dev/ttyUSB0").lookupConn "/dev/ttyUSB0"
      = none :=
  ⟨(c7_read_error_closes_connection _ "/dev/ttyUSB0" 0
      (newSerial "/dev/ttyUSB0" faultyRead) (by decide) (by decide) (by decide)
      (by decide)).1,
    (c7_read_error_closes_connection _ "/dev/ttyUSB0" 0
      (newSerial "/dev/ttyUSB0" faultyRead) (by decide) (by decide) (by decide)
      (by decide)).2.1⟩

/-! ## Lemmas for the reconciliation step (C4) -/

theorem findConn_none_of_not_key (l : List (String × Nat)) (p : String)
    (h : p ∉ l.map Prod.fst) : findConn l p = none := by
  apply findConn_eq_none_of_not_mem
  intro e he hc
  exact h (List.mem_map.mpr ⟨e, he, hc⟩)

theorem map_fst_filter_key (l : List (String × Nat)) (pred : String → Bool) :
    (l.filter (fun e => pred e.1)).map Prod.fst = (l.map Prod.fst).filter pred := by
  induction l with
  | nil => rfl
  | cons e rest ih =>
    cases hp : pred e.1 with
    | true => simp [List.filter_cons, hp, ih]
    | false => simp [List.filter_cons, hp, ih]

theorem removeLoop_connections (cur : List String) (w : MainWindow)
    (ports : List String) :
    ((removeLoop w cur ports).svc).connections
      = w.svc.connections.filter
          (fun e => ports.contains e.1 || !cur.contains e.1) := by
  induction cur generalizing w with
  | nil => simp [removeLoop]
  | cons port rest ih =>
    unfold removeLoop
    by_cases hc : ports.contains port
    · simp only [hc, if_true]
      rw [ih w]
      apply List.filter_congr
      intro e _
      by_cases he : e.1 = port
      · rw [he, hc]
        simp
      · simp [List.contains_cons, he]
    · simp only [hc]
      rw [if_neg Bool.false_ne_true]
      rw [ih]
      simp only
      rw [close_port_connections, List.filter_filter]
      apply List.filter_congr
      intro e _
      by_cases he : e.1 = port
      · rw [he]
        simp
        exact fun hm => hc (List.elem_iff.mpr hm)
      · simp [List.contains_cons, he]

theorem open_port_connections_some (svc : SerialPortService) (p : String)
    (f : DevFaults) (hnone : svc.lookupConn p = none) :
    ((svc.open_port p (some f)).1).connections
      = svc.connections ++ [(p, svc.nextHandle)] := by
  simp only [SerialPortService.open_port]
  rw [close_port_eq_of_none hnone]

theorem addLoop_spec (ports : List String) (w : MainWindow) (cur : List String)
    (outs : String → Option DevFaults)
    (hnd : ports.Nodup)
    (hsome : ∀ p ∈ ports, (outs p).isSome)
    (habsent : ∀ p ∈ ports, cur.contains p = false → w.svc.lookupConn p = none) :
    (((addLoop w cur ports outs).1).svc).connections.map Prod.fst
        = w.svc.connections.map Prod.fst ++ ports.filter (fun p => !cur.contains p)
      ∧ (addLoop w cur ports outs).2 = ports.filter (fun p => !cur.contains p) := by
  induction ports generalizing w with
  | nil => simp [addLoop]
  | cons port rest ih =>
    have hndtail : rest.Nodup := (List.nodup_cons.mp hnd).2
    have hportnotin : port ∉ rest := (List.nodup_cons.mp hnd).1
    have hsome' : ∀ p ∈ rest, (outs p).isSome :=
      fun p hp => hsome p (List.mem_cons_of_mem _ hp)
    simp only [addLoop]
    by_cases hc : cur.contains port
    · rw [if_pos hc]
      have habsent' : ∀ p ∈ rest, cur.contains p = false → w.svc.lookupConn p = none :=
        fun p hp hcp => habsent p (List.mem_cons_of_mem _ hp) hcp
      have hres := ih w hndtail hsome' habsent'
      rw [List.filter_cons, if_neg (by rw [hc]; simp)]
      exact hres
    · rw [if_neg hc]
      have hcf : cur.contains port = false := by
        cases hx : cur.contains port
        · rfl
        · exact absurd hx hc
      obtain ⟨f, hf⟩ := Option.isSome_iff_exists.mp
        (hsome port (List.mem_cons_self port rest))
      have hnone : w.svc.lookupConn port = none :=
        habsent port (List.mem_cons_self port rest) hcf
      have hw2conns : (({ w with portListItems := w.portListItems ++ [port]
          })._start_serial_monitor port (outs port)).svc.connections
            = w.svc.connections ++ [(port, w.svc.nextHandle)] := by
        simp only [MainWindow._start_serial_monitor, hf]
        exact open_port_connections_some w.svc port f hnone
      have habsent' : ∀ p ∈ rest, cur.contains p = false →
          (({ w with portListItems := w.portListItems ++ [port]
            })._start_serial_monitor port (outs port)).svc.lookupConn p = none := by
        intro p hp hcp
        have hne : p ≠ port := fun he => hportnotin (he ▸ hp)
        simp only [MainWindow._start_serial_monitor, hf]
        exact lookupConn_open_port_ne w.svc port p (some f) hne
          (habsent p (List.mem_cons_of_mem _ hp) hcp)
      have hres := ih _ hndtail hsome' habsent'
      rcases h3 : addLoop (({ w with portListItems := w.portListItems ++ [port]
          })._start_serial_monitor port (outs port)) cur rest outs with ⟨w3, att⟩
      rw [h3] at hres
      simp only at hres
      simp only [h3, List.filter_cons]
      rw [if_pos (by rw [hcf]; rfl)]
      constructor
      · rw [hres.1, hw2conns, List.map_append]
        simp [List.append_assoc]
      · rw [hres.2]

theorem closed_eta (c : SerialConn) (h : c.isOpen = false) :
    ({ c with isOpen := false } : SerialConn) = c := by
  cases c
  simp_all

theorem close_port_preserves_closed {svc : SerialPortService} (x : String)
    {r : Nat} {c : SerialConn} (hc : getHandle svc.handles r = some c)
    (hclosed : c.isOpen = false) :
    getHandle (svc.close_port x).handles r = some c := by
  unfold SerialPortService.close_port
  cases h : svc.lookupConn x with
  | none => exact hc
  | some r' =>
    simp only
    by_cases hr : r = r'
    · rw [← hr, getHandle_map_closeEntry_self, hc]
      simp [closed_eta c hclosed]
    · rw [getHandle_map_closeEntry_ne _ _ _ hr]
      exact hc

theorem open_port_preserves_closed {svc : SerialPortService} (x : String)
    (o : Option DevFaults) {r : Nat} {c : SerialConn}
    (hc : getHandle svc.handles r = some c) (hclosed : c.isOpen = false) :
    getHandle ((svc.open_port x o).1).handles r = some c := by
  have h1 := close_port_preserves_closed x hc hclosed
  cases o with
  | none => exact h1
  | some f =>
    simp only [SerialPortService.open_port]
    exact getHandle_append_some h1 _

theorem removeLoop_preserves_closed (cur : List String) (w : MainWindow)
    (ports : List String) {r : Nat} {c : SerialConn}
    (hc : getHandle w.svc.handles r = some c) (hclosed : c.isOpen = false) :
    getHandle ((removeLoop w cur ports).svc).handles r = some c := by
  induction cur generalizing w with
  | nil => exact hc
  | cons port rest ih =>
    unfold removeLoop
    by_cases hp : ports.contains port
    · rw [if_pos hp]
      exact ih w hc
    · rw [if_neg hp]
      exact ih _ (close_port_preserves_closed port hc hclosed)

theorem addLoop_preserves_closed (ports : List String) (w : MainWindow)
    (cur : List String) (outs : String → Option DevFaults) {r : Nat}
    {c : SerialConn} (hc : getHandle w.svc.handles r = some c)
    (hclosed : c.isOpen = false) :
    getHandle (((addLoop w cur ports outs).1).svc).handles r = some c := by
  induction ports generalizing w with
  | nil => exact hc
  | cons port rest ih =>
    simp only [addLoop]
    by_cases hp : cur.contains port
    · rw [if_pos hp]
      exact ih w hc
    · rw [if_neg hp]
      rcases h3 : addLoop (({ w with portListItems := w.portListItems ++ [port]
          })._start_serial_monitor port (outs port)) cur rest outs with ⟨w3, att⟩
      simp only [h3]
      have hstep : getHandle (({ w with portListItems := w.portListItems ++ [port]
          })._start_serial_monitor port (outs port)).svc.handles r = some c := by
        simp only [MainWindow._start_serial_monitor]
        exact open_port_preserves_closed port (outs port) hc hclosed
      have := ih _ hstep
      rw [h3] at this
      exact this

theorem close_port_closes {svc : SerialPortService} {p : String} {r : Nat}
    {c : SerialConn} (hlk : svc.lookupConn p = some r)
    (hc : getHandle svc.handles r = some c) :
    getHandle (svc.close_port p).handles r = some { c with isOpen := false } := by
  rw [close_port_handle_closed hlk, hc]
  rfl

theorem removeLoop_closes (cur : List String) (w : MainWindow)
    (ports : List String) (p : String) {r : Nat} {c : SerialConn}
    (hlk : w.svc.lookupConn p = some r)
    (hc : getHandle w.svc.handles r = some c)
    (hin : cur.contains p = true) (hout : ports.contains p = false) :
    getHandle ((removeLoop w cur ports).svc).handles r
      = some { c with isOpen := false } := by
  induction cur generalizing w c with
  | nil => simp at hin
  | cons port rest ih =>
    unfold removeLoop
    by_cases he : p = port
    · rw [← he, if_neg (by rw [hout]; simp)]
      exact removeLoop_preserves_closed rest _ ports (close_port_closes hlk hc) rfl
    · have hin' : rest.contains p = true := by
        rw [List.contains_cons] at hin
        simpa [fun hx : p = port => he hx] using hin
      by_cases hp : ports.contains port
      · rw [if_pos hp]
        exact ih w hlk hc hin'
      · rw [if_neg hp]
        have hlk' : (w.svc.close_port port).lookupConn p = some r := by
          rw [lookupConn_close_port_ne w.svc port p he]
          exact hlk
        unfold SerialPortService.close_port
        cases h2 : w.svc.lookupConn port with
        | none =>
          have hconv : (w.svc.close_port port) = w.svc := close_port_eq_of_none h2
          exact ih _ (by rw [hconv] at hlk'; exact hlk') hc hin'
        | some r2 =>
          by_cases hr : r = r2
          · have hstep : getHandle (w.svc.handles.map (closeEntry r2)) r
                = some { c with isOpen := false } := by
              rw [← hr, getHandle_map_closeEntry_self, hc]
              rfl
            have hres := ih ({ w with
                svc := { w.svc with
                  handles := w.svc.handles.map (closeEntry r2),
                  connections := w.svc.connections.filter
                    (fun e => !(e.1 == port)) },
                portListItems := w.portListItems.erase port })
              (c := { c with isOpen := false }) ?_ ?_ hin'
            · simpa using hres
            · show findConn (w.svc.connections.filter (fun e => !(e.1 == port))) p
                = some r
              rw [findConn_filter_ne _ _ _ he]
              exact hlk
            · exact hstep
          · have hstep : getHandle (w.svc.handles.map (closeEntry r2)) r = some c := by
              rw [getHandle_map_closeEntry_ne _ _ _ hr]
              exact hc
            have hres := ih ({ w with
                svc := { w.svc with
                  handles := w.svc.handles.map (closeEntry r2),
                  connections := w.svc.connections.filter
                    (fun e => !(e.1 == port)) },
                portListItems := w.portListItems.erase port })
              (c := c) ?_ ?_ hin'
            · exact hres
            · show findConn (w.svc.connections.filter (fun e => !(e.1 == port))) p
                = some r
              rw [findConn_filter_ne _ _ _ he]
              exact hlk
            · exact hstep

/-- The attempts list produced by `_populate_serial_ports` is the one
produced by its add loop. -/
theorem populate_attempts_eq (w : MainWindow) (ports : List String)
    (outs : String → Option DevFaults) :
    (w._populate_serial_ports ports outs).2
      = (addLoop (removeLoop w w.portListItems ports) w.portListItems ports
          outs).2 := by
  unfold MainWindow._populate_serial_ports
  simp only

theorem populate_closes (w : MainWindow) (ports : List String)
    (outs : String → Option DevFaults) (p : String) {r : Nat} {c : SerialConn}
    (hlk : w.svc.lookupConn p = some r) (hc : getHandle w.svc.handles r = some c)
    (hin : w.portListItems.contains p = true) (hout : ports.contains p = false) :
    getHandle (((w._populate_serial_ports ports outs).1).svc).handles r
      = some { c with isOpen := false } := by
  rw [populate_svc_eq]
  have h1 := removeLoop_closes w.portListItems w ports p hlk hc hin hout
  exact addLoop_preserves_closed ports _ w.portListItems outs h1 rfl

/-! ## C4: reconciliation completeness -/

/-- C4 (counterexample): from the empty snapshot S1 = {} to S2 =
{"/dev/ttyUSB0"} with a device whose open fails, the reconciliation leaves
the registry holding no identifier at all — not "exactly S2" — even though
the port is now shown in the list. -/
theorem c4_reconcile_failed_open_cex :
    (((MainWindow.init._populate_serial_ports ["/dev/ttyUSB0"]
          (fun _ => none)).1).svc).connections = []
      ∧ ((MainWindow.init._populate_serial_ports ["/dev/ttyUSB0"]
          (fun _ => none)).1).portListItems = ["/dev/ttyUSB0"]
      ∧ (MainWindow.init._populate_serial_ports ["/dev/ttyUSB0"]
          (fun _ => none)).2 = ["/dev/ttyUSB0"] := by
  exact ⟨rfl, rfl, rfl⟩

/-- C4 (amended): when the registry and the list both track exactly S1 and
every device open requested by the reconciliation succeeds, reconciling with
a duplicate-free snapshot S2 leaves the registry tracking exactly S2 (in the
order: surviving ports of S1, then newly discovered ports of S2); the open
attempts are exactly the ports of S2 not in S1, each attempted once; and the
device handle of every port of S1 dropped from S2 is closed.  Without the
success assumption a failed open leaves the new identifier in the list but
absent from the registry. -/
theorem c4_reconcile_amended (w : MainWindow) (S1 S2 : List String)
    (outs : String → Option DevFaults)
    (hitems : w.portListItems = S1)
    (hkeys : w.svc.connections.map Prod.fst = S1)
    (hnd2 : S2.Nodup)
    (hsome : ∀ p ∈ S2, (outs p).isSome) :
    (((w._populate_serial_ports S2 outs).1).svc).connections.map Prod.fst
        = S1.filter (fun p => S2.contains p)
          ++ S2.filter (fun p => !S1.contains p)
      ∧ (∀ q, q ∈ (((w._populate_serial_ports S2 outs).1).svc).connections.map
            Prod.fst ↔ q ∈ S2)
      ∧ (w._populate_serial_ports S2 outs).2 = S2.filter (fun p => !S1.contains p)
      ∧ (∀ (p : String) (r : Nat) (c : SerialConn),
          w.svc.lookupConn p = some r → getHandle w.svc.handles r = some c →
          S2.contains p = false →
          getHandle (((w._populate_serial_ports S2 outs).1).svc).handles r
            = some { c with isOpen := false }) := by
  have hremovekeys : ((removeLoop w w.portListItems S2).svc).connections.map Prod.fst
      = S1.filter (fun p => S2.contains p) := by
    rw [removeLoop_connections,
      map_fst_filter_key w.svc.connections
        (fun q => S2.contains q || !w.portListItems.contains q),
      hkeys, hitems]
    apply List.filter_congr
    intro q hq
    have : S1.contains q = true := List.elem_iff.mpr hq
    rw [this]
    simp
  have habsent : ∀ p ∈ S2, (w.portListItems).contains p = false →
      ((removeLoop w w.portListItems S2).svc).lookupConn p = none := by
    intro p _ hcp
    apply findConn_none_of_not_key
    rw [hremovekeys]
    intro hmem
    have hp1 : p ∈ S1 := (List.mem_filter.mp hmem).1
    rw [hitems] at hcp
    have hct : S1.contains p = true := List.elem_iff.mpr hp1
    rw [hct] at hcp
    exact Bool.noConfusion hcp
  have hspec := addLoop_spec S2 (removeLoop w w.portListItems S2) w.portListItems
    outs hnd2 hsome habsent
  have hkeysfin : (((w._populate_serial_ports S2 outs).1).svc).connections.map Prod.fst
      = S1.filter (fun p => S2.contains p)
        ++ S2.filter (fun p => !S1.contains p) := by
    rw [populate_svc_eq, hspec.1, hremovekeys, hitems]
  refine ⟨hkeysfin, ?_, ?_, ?_⟩
  · intro q
    rw [hkeysfin]
    constructor
    · intro hmem
      rcases List.mem_append.mp hmem with h1 | h2
      · exact List.elem_iff.mp (List.mem_filter.mp h1).2
      · exact (List.mem_filter.mp h2).1
    · intro hq2
      by_cases hq1 : q ∈ S1
      · exact List.mem_append.mpr (Or.inl (List.mem_filter.mpr
          ⟨hq1, List.elem_iff.mpr hq2⟩))
      · refine List.mem_append.mpr (Or.inr (List.mem_filter.mpr ⟨hq2, ?_⟩))
        cases hx : S1.contains q with
        | false => rfl
        | true => exact absurd (List.elem_iff.mp hx) hq1
  · rw [populate_attempts_eq, hspec.2, hitems]
  · intro p r c hlk hc hout
    apply populate_closes w S2 outs p hlk hc ?_ hout
    have hmemp : (p, r) ∈ w.svc.connections := findConn_mem hlk
    have : p ∈ S1 := by
      rw [← hkeys]
      exact List.mem_map.mpr ⟨(p, r), hmemp, rfl⟩
    rw [hitems]
    exact List.elem_iff.mpr this

/-- Witness for C4: reconciling the window tracking `/dev/ttyUSB0` with the
snapshot `{"/dev/ttyUSB1"}` (all opens succeeding) leaves the registry
tracking exactly `/dev/ttyUSB1`, attempts exactly one open, and closes the
dropped port's handle. -/
theorem c4_reconcile_amended_witness :
    (((winEx._populate_serial_ports ["/dev/ttyUSB1"]
          (fun _ => some faultFree)).1).svc).connections.map Prod.fst
        = ["/dev/ttyUSB1"]
      ∧ (winEx._populate_serial_ports ["/dev/ttyUSB1"]
          (fun _ => some faultFree)).2 = ["/dev/ttyUSB1"]
      ∧ getHandle (((winEx._populate_serial_ports ["/dev/ttyUSB1"]
          (fun _ => some faultFree)).1).svc).handles 0
        = some { newSerial "/dev/ttyUSB0" faultFree with isOpen := false } := by
  have h := c4_reconcile_amended winEx ["/dev/ttyUSB0"] ["/dev/ttyUSB1"]
    (fun _ => some faultFree) rfl (by decide) (by decide) (by decide)
  refine ⟨?_, ?_, ?_⟩
  · rw [h.1]
    rfl
  · rw [h.2.2.1]
    rfl
  · exact h.2.2.2 "/dev/ttyUSB0" 0 (newSerial "/dev/ttyUSB0" faultFree)
      (by decide) (by decide) (by decide)

/-! ## C5: at most one live device handle per identifier -/

theorem fst_nodup_mem_unique {α β : Type} {l : List (α × β)}
    (h : (l.map Prod.fst).Nodup) {k : α} {v1 v2 : β}
    (h1 : (k, v1) ∈ l) (h2 : (k, v2) ∈ l) : v1 = v2 := by
  induction l with
  | nil => simp at h1
  | cons e rest ih =>
    simp only [List.map_cons, List.nodup_cons] at h
    rcases List.mem_cons.mp h1 with he1 | ht1
    · rcases List.mem_cons.mp h2 with he2 | ht2
      · exact congrArg Prod.snd (he1.trans he2.symm)
      · exfalso
        apply h.1
        rw [← he1]
        exact List.mem_map.mpr ⟨(k, v2), ht2, rfl⟩
    · rcases List.mem_cons.mp h2 with he2 | ht2
      · exfalso
        apply h.1
        rw [← he2]
        exact List.mem_map.mpr ⟨(k, v1), ht1, rfl⟩
      · exact ih h.2 ht1 ht2

theorem closeEntry_fst (r : Nat) (q : Nat × SerialConn) : (closeEntry r q).1 = q.1 := by
  unfold closeEntry
  by_cases h : q.1 = r <;> simp [h]

theorem map_fst_closeEntry (hs : List (Nat × SerialConn)) (r : Nat) :
    (hs.map (closeEntry r)).map Prod.fst = hs.map Prod.fst := by
  rw [List.map_map]
  apply List.map_congr_left
  intro q _
  exact closeEntry_fst r q

theorem nodup_append_singleton {α : Type} {l : List α} {a : α}
    (h : l.Nodup) (ha : a ∉ l) : (l ++ [a]).Nodup := by
  simp [List.nodup_append, h, ha]

/-- Well-formedness of the service state: registry keys are unique, heap
references are unique, every registry entry points at a live handle it owns,
and every live handle is owned by exactly its registry entry. -/
structure GoodSvc (svc : SerialPortService) : Prop where
  keysND : (svc.connections.map Prod.fst).Nodup
  idsND : (svc.handles.map Prod.fst).Nodup
  connLive : ∀ e ∈ svc.connections,
    ∃ c, getHandle svc.handles e.2 = some c ∧ c.owner = e.1 ∧ c.isOpen = true
  liveConn : ∀ q ∈ svc.handles, q.2.isOpen = true → (q.2.owner, q.1) ∈ svc.connections
  fresh : ∀ q ∈ svc.handles, q.1 < svc.nextHandle

theorem goodSvc_init (b : Nat) : GoodSvc (SerialPortService.init b) := by
  refine ⟨List.nodup_nil, List.nodup_nil, ?_, ?_, ?_⟩ <;> intro q hq <;>
    simp [SerialPortService.init] at hq

theorem goodSvc_close_port {svc : SerialPortService} (g : GoodSvc svc) (p : String) :
    GoodSvc (svc.close_port p) := by
  cases h : svc.lookupConn p with
  | none => rw [close_port_eq_of_none h]; exact g
  | some r =>
    have hmem : (p, r) ∈ svc.connections := findConn_mem h
    obtain ⟨cp, hcp, hcpown, hcplive⟩ := g.connLive (p, r) hmem
    simp only at hcp hcpown
    simp only [SerialPortService.close_port, h]
    refine ⟨?_, ?_, ?_, ?_, ?_⟩
    · exact g.keysND.sublist (List.Sublist.map Prod.fst (List.filter_sublist _))
    · rw [map_fst_closeEntry]
      exact g.idsND
    · intro e he
      have hekeep := List.mem_filter.mp he
      obtain ⟨c, hc, hcown, hclive⟩ := g.connLive e hekeep.1
      have hne : e.2 ≠ r := by
        intro heq
        rw [heq, hcp] at hc
        injection hc with hcc
        have hep : e.1 = p := by
          rw [← hcown, ← hcc]
          exact hcpown
        have hk := hekeep.2
        rw [hep] at hk
        simp at hk
      refine ⟨c, ?_, hcown, hclive⟩
      rw [getHandle_map_closeEntry_ne _ _ _ hne]
      exact hc
    · intro q hq hlive
      obtain ⟨q0, hq0, hq0eq⟩ := List.mem_map.mp hq
      by_cases hq0r : q0.1 = r
      · exfalso
        rw [← hq0eq] at hlive
        unfold closeEntry at hlive
        simp [hq0r] at hlive
      · have hqq0 : q = q0 := by
          rw [← hq0eq]
          unfold closeEntry
          simp [hq0r]
        rw [hqq0]
        have hin := g.liveConn q0 hq0 (by rw [← hqq0]; exact hlive)
        apply List.mem_filter.mpr
        refine ⟨hin, ?_⟩
        have howne : q0.2.owner ≠ p := by
          intro howp
          rw [howp] at hin
          have := fst_nodup_mem_unique g.keysND hin hmem
          exact hq0r this
        simp [howne]
    · intro q hq
      obtain ⟨q0, hq0, hq0eq⟩ := List.mem_map.mp hq
      rw [← hq0eq, closeEntry_fst]
      exact g.fresh q0 hq0

theorem not_key_of_fresh {svc : SerialPortService} (g : GoodSvc svc) :
    svc.nextHandle ∉ svc.handles.map Prod.fst := by
  intro hmem
  obtain ⟨q, hq, hqe⟩ := List.mem_map.mp hmem
  have := g.fresh q hq
  omega

theorem goodSvc_open_port {svc : SerialPortService} (g : GoodSvc svc) (p : String)
    (o : Option DevFaults) : GoodSvc ((svc.open_port p o).1) := by
  cases o with
  | none => exact goodSvc_close_port g p
  | some f =>
    have g1 := goodSvc_close_port g p
    have hpabsent : p ∉ ((svc.close_port p).connections.map Prod.fst) := by
      intro hmem
      obtain ⟨e, he, hee⟩ := List.mem_map.mp hmem
      exact not_mem_of_findConn_eq_none (lookupConn_close_port_self svc p) e he hee
    have hhnone : getHandle (svc.close_port p).handles
        (svc.close_port p).nextHandle = none := by
      apply getHandle_eq_none_of_not_mem
      intro q hq heq
      have := g1.fresh q hq
      omega
    simp only [SerialPortService.open_port]
    refine ⟨?_, ?_, ?_, ?_, ?_⟩
    · simp only [List.map_append, List.map_cons, List.map_nil]
      exact nodup_append_singleton g1.keysND hpabsent
    · simp only [List.map_append, List.map_cons, List.map_nil]
      exact nodup_append_singleton g1.idsND (not_key_of_fresh g1)
    · intro e he
      simp only at he
      rcases List.mem_append.mp he with h1 | h2
      · obtain ⟨c, hc, hcown, hclive⟩ := g1.connLive e h1
        exact ⟨c, getHandle_append_some hc _, hcown, hclive⟩
      · have he2 : e = (p, (svc.close_port p).nextHandle) := by simpa using h2
        refine ⟨newSerial p f, ?_, ?_, rfl⟩
        · rw [he2]
          simp only
          rw [getHandle_append_none hhnone]
          simp [getHandle]
        · rw [he2]
          rfl
    · intro q hq hlive
      simp only at hq
      rcases List.mem_append.mp hq with h1 | h2
      · have := g1.liveConn q h1 hlive
        simp only
        exact List.mem_append.mpr (Or.inl this)
      · have hq2 : q = ((svc.close_port p).nextHandle, newSerial p f) := by
          simpa using h2
        rw [hq2]
        simp only [newSerial]
        exact List.mem_append.mpr (Or.inr (by simp))
    · intro q hq
      simp only at hq ⊢
      rcases List.mem_append.mp hq with h1 | h2
      · have := g1.fresh q h1
        omega
      · have hq2 : q = ((svc.close_port p).nextHandle, newSerial p f) := by
          simpa using h2
        rw [hq2]
        simp

theorem goodSvc_removeLoop (cur : List String) (w : MainWindow)
    (ports : List String) (g : GoodSvc w.svc) :
    GoodSvc ((removeLoop w cur ports).svc) := by
  induction cur generalizing w with
  | nil => exact g
  | cons port rest ih =>
    unfold removeLoop
    by_cases hc : ports.contains port
    · rw [if_pos hc]
      exact ih w g
    · rw [if_neg hc]
      exact ih _ (goodSvc_close_port g port)

theorem goodSvc_addLoop (ports : List String) (w : MainWindow)
    (cur : List String) (outs : String → Option DevFaults) (g : GoodSvc w.svc) :
    GoodSvc (((addLoop w cur ports outs).1).svc) := by
  induction ports generalizing w with
  | nil => exact g
  | cons port rest ih =>
    simp only [addLoop]
    by_cases hc : cur.contains port
    · rw [if_pos hc]
      exact ih w g
    · rw [if_neg hc]
      rcases h3 : addLoop (({ w with portListItems := w.portListItems ++ [port]
          })._start_serial_monitor port (outs port)) cur rest outs with ⟨w3, att⟩
      simp only [h3]
      have hstep : GoodSvc (({ w with portListItems := w.portListItems ++ [port]
          })._start_serial_monitor port (outs port)).svc := by
        simp only [MainWindow._start_serial_monitor]
        exact goodSvc_open_port g port (outs port)
      have := ih _ hstep
      rw [h3] at this
      exact this

theorem goodSvc_populate (w : MainWindow) (ports : List String)
    (outs : String → Option DevFaults) (g : GoodSvc w.svc) :
    GoodSvc (((w._populate_serial_ports ports outs).1).svc) := by
  rw [populate_svc_eq]
  exact goodSvc_addLoop ports _ w.portListItems outs
    (goodSvc_removeLoop w.portListItems w ports g)

theorem goodSvc_execOp (w : MainWindow) (op : Op) (g : GoodSvc w.svc) :
    GoodSvc ((execOp w op).svc) := by
  cases op with
  | openOp name outcome => exact goodSvc_open_port g name outcome
  | closeOp name => exact goodSvc_close_port g name
  | reconcileOp ports outcomes => exact goodSvc_populate w ports outcomes g

theorem goodSvc_execOps (ops : List Op) (w : MainWindow) (g : GoodSvc w.svc) :
    GoodSvc ((execOps w ops).svc) := by
  induction ops generalizing w with
  | nil => exact g
  | cons op rest ih => exact ih (execOp w op) (goodSvc_execOp w op g)

/-- C5: after any finite sequence of open, close and reconcile operations
from the initial state, the registry maps each identifier to at most one
connection (its keys are duplicate-free), any two live device handles with
the same owning identifier are the same heap entry, and opening an
identifier that is currently tracked leaves its prior handle closed after
the open. -/
theorem c5_at_most_one_live_handle (ops : List Op) :
    (((execOps MainWindow.init ops).svc).connections.map Prod.fst).Nodup
      ∧ (∀ q1 ∈ ((execOps MainWindow.init ops).svc).handles,
          ∀ q2 ∈ ((execOps MainWindow.init ops).svc).handles,
          q1.2.isOpen = true → q2.2.isOpen = true →
          q1.2.owner = q2.2.owner → q1 = q2)
      ∧ (∀ (p : String) (r : Nat) (o : Option DevFaults),
          ((execOps MainWindow.init ops).svc).lookupConn p = some r →
          ∃ c, getHandle ((((execOps MainWindow.init ops).svc).open_port p o).1).handles
              r = some c ∧ c.isOpen = false) := by
  have g : GoodSvc ((execOps MainWindow.init ops).svc) :=
    goodSvc_execOps ops MainWindow.init (goodSvc_init DEFAULT_BAUD_RATE)
  refine ⟨g.keysND, ?_, ?_⟩
  · intro q1 hq1 q2 hq2 hl1 hl2 hown
    have hm1 := g.liveConn q1 hq1 hl1
    have hm2 := g.liveConn q2 hq2 hl2
    rw [hown] at hm1
    have hfst : q1.1 = q2.1 := fst_nodup_mem_unique g.keysND hm1 hm2
    have hsnd : q1.2 = q2.2 := by
      apply fst_nodup_mem_unique g.idsND (k := q1.1)
      · exact (by
          have : (q1.1, q1.2) = q1 := rfl
          rw [this]
          exact hq1)
      · rw [hfst]
        have : (q2.1, q2.2) = q2 := rfl
        rw [this]
        exact hq2
    exact Prod.ext hfst hsnd
  · intro p r o hlk
    have hmem := findConn_mem hlk
    obtain ⟨c, hc, _, _⟩ := g.connLive (p, r) hmem
    simp only at hc
    exact ⟨{ c with isOpen := false }, open_port_handle_closed o hlk hc, rfl⟩

/-- Witness for C5: after opening `/dev/ttyUSB0`, re-opening it closes the
prior handle (reference 0). -/
theorem c5_at_most_one_live_handle_witness :
    ∃ c, getHandle ((((execOps MainWindow.init
          [Op.openOp "/dev/ttyUSB0" (some faultFree)]).svc).open_port "/dev/ttyUSB0"
          (some faultFree)).1).handles 0 = some c ∧ c.isOpen = false :=
  (c5_at_most_one_live_handle [Op.openOp "/dev/ttyUSB0" (some faultFree)]).2.2
    "/dev/ttyUSB0" 0 (some faultFree) (by decide)
